import Mathlib

/-!
Verification of the ariane CI-orchestration service (Go) against its
natural-language specification.  The Go handlers are shallowly embedded as
pure Lean functions: every forge (GitHub) REST call is represented by an
explicit environment argument carrying the response the call would have
produced, and the calls a handler issues are recorded in an explicit trace
of `ForgeCall` values.  Fallible calls are `Except String` values, machine
integers are `Int`/`Nat`, and Go strings are Lean `String`.

Definitions are translated from the repository sources
(`internal/handlers/workflow_run.go`, `workflow_processor.go`,
`workflow_utils.go`, `issue_comment.go`, `pull_request.go`,
`internal/config/server.go`).  The `internal/config` package body
(`ArianeConfig`, `CheckForTrigger`, the feedback accessors) is not part of
the provided sources; those definitions are modelled from the spec and are
marked as such in their doc comments, with behaviour pinned by the
package tests that are part of the sources.
-/

namespace Ariane

/-- Embedding of Go `strings.Contains s sub`: `sub` occurs as a contiguous
substring of `s` (true for the empty substring). -/
def strContains (s sub : String) : Bool :=
  (s.toList.tails).any (fun t => sub.toList.isPrefixOf t)

/-- Embedding of Go `path/filepath.Base`: the last element of the path after
trailing slashes are removed; `"."` for the empty path, `"/"` when the path
consists only of slashes. -/
def filepathBase (p : String) : String :=
  if p = "" then "."
  else
    let rev := p.toList.reverse.dropWhile (fun c => c = '/')
    if rev.isEmpty then "/"
    else ⟨(rev.takeWhile (fun c => c ≠ '/')).reverse⟩

/-- A workflow run as returned by the forge (the fields the handlers read). -/
structure WorkflowRun where
  id : Int
  status : String
  conclusion : String
  runAttempt : Int
  deriving DecidableEq, Repr

/-- A workflow job as returned by the forge (the fields the handlers read). -/
structure WorkflowJob where
  id : Int
  name : String
  conclusion : String
  deriving DecidableEq, Repr

/-- The `rerun` section of the repository configuration
(`config.RerunConfig`). -/
structure RerunConfig where
  maxRetries : Int
  workflows : List String
  excludeWorkflows : List String
  deriving DecidableEq, Repr

/-- The forge calls the embedded handlers can issue.  Read-only calls whose
responses are already part of the environment (PR fetches, configuration
fetch, team-membership queries, run listings inside the dependency gate) are
not all traced; the trace records the calls the specification claims
constrain. -/
inductive ForgeCall where
  | listRuns (workflow sha : String)
  | getRun (runID : Int)
  | listJobs (runID : Int)
  | rerunFailedJobsReq (runID : Int)
  | rerunJob (jobID : Int)
  | dispatchWorkflow (workflow : String)
  | getWorkflowByFileName (workflow : String)
  | createCheckRun (name sha : String)
  | createComment (pr : Int) (body : String)
  | createReaction (emoji : String)
  | listFiles (pr : Int)
  deriving DecidableEq, Repr

/-- Embedding of `rerunFailedJobs` (workflow_utils.go): list the jobs of the
run, and when at least one job concluded `failure` issue a
rerun-failed-jobs request for the run.  `jobsRes` and `rerunRes` are the
responses of the two forge calls. -/
def rerunFailedJobs (runID : Int) (jobsRes : Except String (List WorkflowJob))
    (rerunRes : Except String Unit) : List ForgeCall × Except String Unit :=
  match jobsRes with
  | .error e => ([.listJobs runID], .error e)
  | .ok jobs =>
    if jobs.any (fun j => j.conclusion == "failure") then
      ([.listJobs runID, .rerunFailedJobsReq runID],
        match rerunRes with
        | .error e => .error e
        | .ok _ => .ok ())
    else
      ([.listJobs runID], .ok ())

/-- Embedding of `WorkflowRunHandler.handleFailedRun` (workflow_run.go):
the bounded-rerun policy applied to a `workflow_run completed / failure`
event.  `pullRequestCount` is the number of pull requests attached to the
run, `getRunRes` the response of `GetWorkflowRunByID`, `jobsRes` and
`rerunRes` the responses used by `rerunFailedJobs`. -/
def handleFailedRun (rerunConfig : Option RerunConfig) (pullRequestCount : Nat)
    (workflowPath : String) (runID : Int)
    (getRunRes : Except String WorkflowRun)
    (jobsRes : Except String (List WorkflowJob))
    (rerunRes : Except String Unit) : List ForgeCall × Except String Unit :=
  if pullRequestCount = 0 then ([], .ok ())
  else
    match rerunConfig with
    | none => ([], .ok ())
    | some rc =>
      if rc.excludeWorkflows.any (fun ex => strContains workflowPath ex) then
        ([], .ok ())
      else if 0 < rc.workflows.length &&
          !(rc.workflows.any (fun al => strContains workflowPath al)) then
        ([], .ok ())
      else
        match getRunRes with
        | .error e => ([.getRun runID], .error e)
        | .ok run =>
          if rc.maxRetries < run.runAttempt then ([.getRun runID], .ok ())
          else
            let r := rerunFailedJobs runID jobsRes rerunRes
            (.getRun runID :: r.1, r.2)

/-- The per-workflow decision statuses (`workflowStatusType` in
issue_comment.go). -/
inductive WorkflowStatusKind where
  | triggered
  | skipped
  | alreadyCompleted
  | failed
  | failedToMarkSkipped
  deriving DecidableEq, Repr

/-- A per-workflow status entry (`workflowStatus` in issue_comment.go). -/
structure WorkflowStatusEntry where
  name : String
  status : WorkflowStatusKind
  deriving DecidableEq, Repr

/-- Embedding of `getStatusEmoji` (workflow_utils.go). -/
def getStatusEmoji : WorkflowStatusKind → String
  | .triggered => "✅ Triggered"
  | .skipped => "⏭️ Skipped"
  | .alreadyCompleted => "✔️ Already Completed"
  | .failed => "❌ Failed to Trigger"
  | .failedToMarkSkipped => "⚠️ Failed to Mark as Skipped"

/-- Embedding of `buildWorkflowStatusTable` (workflow_utils.go). -/
def buildWorkflowStatusTable (statuses : List WorkflowStatusEntry) : String :=
  if statuses.length = 0 then ""
  else
    "## Workflow Status\n\n| Workflow | Status |\n|----------|--------|\n" ++
      String.join (statuses.map (fun ws =>
        "| `" ++ ws.name ++ "` | " ++ getStatusEmoji ws.status ++ " |\n"))

/-- Embedding of `WorkflowProcessor.rerunFailedJobs` (workflow_processor.go):
the asynchronous task spawned when the prior run of a workflow concluded
`failure`.  It lists the jobs of the run; if one is named
"Commit Status Start" it reruns that single job first (aborting on error),
then requests a rerun of the failed jobs.  The returned list is the calls
the task issues. -/
def processorRerunFailedJobs (runID : Int)
    (jobsRes : Except String (List WorkflowJob))
    (rerunJobRes : Except String Unit) : List ForgeCall :=
  match jobsRes with
  | .error _ => [.listJobs runID]
  | .ok jobs =>
    let jobID : Int :=
      match jobs.find? (fun j => j.name == "Commit Status Start") with
      | some j => j.id
      | none => 0
    if jobID == 0 then
      [.listJobs runID, .rerunFailedJobsReq runID]
    else
      match rerunJobRes with
      | .error _ => [.listJobs runID, .rerunJob jobID]
      | .ok _ => [.listJobs runID, .rerunJob jobID, .rerunFailedJobsReq runID]

/-- Per-workflow environment for the decision engine: the responses of the
forge calls `processWorkflow` may issue. -/
structure ProcEnv where
  /-- Response of `ListWorkflowRunsByFileName` at the head SHA (page size 1,
  most recent run first). -/
  runsRes : Except String (List WorkflowRun)
  /-- Response of `ListWorkflowJobs` inside the asynchronous rerun task. -/
  jobsRes : Except String (List WorkflowJob)
  /-- Response of `RerunJobByID` for the "Commit Status Start" job. -/
  rerunJobRes : Except String Unit
  /-- Response of `CreateWorkflowDispatchEventByFileName`. -/
  dispatchRes : Except String Unit
  /-- Response of `GetWorkflowByFileName`: the display name of the workflow. -/
  getWorkflowRes : Except String String
  /-- Response of `CreateCheckRun`. -/
  checkRunRes : Except String Unit

/-- Embedding of `WorkflowProcessor.shouldSkipWorkflow`
(workflow_processor.go).  Returns the skip decision and the forge calls
issued (the run listing, plus the asynchronous rerun task when the most
recent run concluded `failure`).  A failed run listing yields `false`. -/
def shouldSkipWorkflow (workflow sha : String) (env : ProcEnv) :
    Bool × List ForgeCall :=
  match env.runsRes with
  | .error _ => (false, [.listRuns workflow sha])
  | .ok runs =>
    match runs with
    | [] => (false, [.listRuns workflow sha])
    | lastRun :: _ =>
      if lastRun.status == "completed" then
        if lastRun.conclusion == "success" || lastRun.conclusion == "skipped" then
          (true, [.listRuns workflow sha])
        else if lastRun.conclusion == "failure" then
          (true, .listRuns workflow sha ::
            processorRerunFailedJobs lastRun.id env.jobsRes env.rerunJobRes)
        else
          (false, [.listRuns workflow sha])
      else
        (false, [.listRuns workflow sha])

/-- Embedding of `WorkflowProcessor.markWorkflowAsSkipped`
(workflow_processor.go): fetch the workflow to obtain its display name and
create a `completed`/`skipped` check run for it on the SHA. -/
def markWorkflowAsSkipped (workflow sha : String) (env : ProcEnv) :
    List ForgeCall × Except String Unit :=
  match env.getWorkflowRes with
  | .error e => ([.getWorkflowByFileName workflow], .error e)
  | .ok wfName =>
    match env.checkRunRes with
    | .error e =>
      ([.getWorkflowByFileName workflow, .createCheckRun wfName sha], .error e)
    | .ok _ =>
      ([.getWorkflowByFileName workflow, .createCheckRun wfName sha], .ok ())

/-- Embedding of `WorkflowProcessor.processWorkflow`
(workflow_processor.go).  `reportAll` is the configuration accessor
`GetReportAllWorkflows()`; `pathGate` is the result of
`shouldRunWorkflow` (the path-change evaluation implemented by the
`internal/config` package, whose body is not among the sources and is
therefore passed as an input here).  Returns the issued forge calls and the
optional status entry. -/
def processWorkflow (reportAll pathGate : Bool) (workflow sha : String)
    (env : ProcEnv) : List ForgeCall × Option WorkflowStatusEntry :=
  let skip := shouldSkipWorkflow workflow sha env
  if skip.1 then
    (skip.2, if reportAll then some ⟨workflow, .alreadyCompleted⟩ else none)
  else if pathGate then
    match env.dispatchRes with
    | .error _ =>
      (skip.2 ++ [.dispatchWorkflow workflow], some ⟨workflow, .failed⟩)
    | .ok _ =>
      (skip.2 ++ [.dispatchWorkflow workflow],
        if reportAll then some ⟨workflow, .triggered⟩ else none)
  else
    let marked := markWorkflowAsSkipped workflow sha env
    match marked.2 with
    | .error _ => (skip.2 ++ marked.1, some ⟨workflow, .failedToMarkSkipped⟩)
    | .ok _ =>
      (skip.2 ++ marked.1,
        if reportAll then some ⟨workflow, .skipped⟩ else none)

/-- Modelled from the spec: a configured trigger phrase is a regular
expression (spec section 3).  The phrases exercised by the repository
(tests, example configuration) are plain literals such as `/test`, or a
literal followed by a single capture group `(.+)`; the model represents
exactly these two shapes of compiled regexes.  Invalid regexes are rejected
by validation and are not representable. -/
inductive Pattern where
  /-- A literal phrase, e.g. `/test`. -/
  | lit (s : String)
  /-- A literal followed by the capture group `(.+)`, e.g. `/cute (.+)`
  with the literal part `"/cute "`. -/
  | litCap (s : String)
  deriving DecidableEq, Repr

/-- Go `re.MatchString body` for a compiled, unanchored pattern: the pattern
matches somewhere inside the body.  For `lit s` this is substring
occurrence; for `litCap s` an occurrence of `s` followed by at least one
character. -/
def patternMatches (p : Pattern) (body : String) : Bool :=
  match p with
  | .lit s => strContains body s
  | .litCap s =>
    (body.toList.tails).any (fun t =>
      s.toList.isPrefixOf t && s.toList.length < t.length)

/-- A trigger entry of the configuration (`config.TriggerConfig`):
the workflows it starts and the phrases of the triggers it depends on. -/
structure TriggerConfig where
  workflows : List String
  dependsOn : List Pattern
  deriving DecidableEq, Repr

/-- One stage of the staged pipeline (`config.Stage`). -/
structure Stage where
  workflows : List String
  command : String
  deriving DecidableEq, Repr

/-- The `stages-config` section (`config.StagesConfig`). -/
structure StagesConfig where
  label : String
  stages : List Stage
  deriving DecidableEq, Repr

/-- The `feedback` section (`config.FeedbackConfig`); both options are
optional booleans. -/
structure FeedbackConfig where
  verbose : Option Bool
  workflowsReport : Option Bool
  deriving DecidableEq, Repr

/-- The repository configuration (`config.ArianeConfig`).  Go stores the
triggers in a map whose iteration order is unspecified; the model uses an
association list, and trigger-order-independent statements are made about
single triggers where the order would matter. -/
structure ArianeConfig where
  feedback : FeedbackConfig
  triggers : List (Pattern × TriggerConfig)
  allowedTeams : List String
  rerunConfig : Option RerunConfig
  stagesConfig : Option StagesConfig
  deriving DecidableEq, Repr

/-- Modelled from the spec: the accessor `GetVerbose` of the
`internal/config` package (absent from the sources; behaviour pinned by
`TestGetVerbose`): false when the option is unset. -/
def ArianeConfig.getVerbose (c : ArianeConfig) : Bool :=
  c.feedback.verbose.getD false

/-- Modelled from the spec: the accessor `GetWorkflowsReport` (absent from
the sources; behaviour pinned by `TestGetWorkflowsReport`): false when the
option is unset. -/
def ArianeConfig.getWorkflowsReport (c : ArianeConfig) : Bool :=
  c.feedback.workflowsReport.getD false

/-- Modelled from the spec: the accessor `GetReportAllWorkflows`, the
conjunction `verbose() && workflows-report()` (spec section 4.1). -/
def ArianeConfig.getReportAllWorkflows (c : ArianeConfig) : Bool :=
  c.getVerbose && c.getWorkflowsReport

/-- Lookup of a trigger by phrase in the configured trigger map. -/
def lookupTrigger (triggers : List (Pattern × TriggerConfig)) (phrase : Pattern) :
    Option TriggerConfig :=
  (triggers.find? (fun pr => pr.1 == phrase)).map Prod.snd

/-- The loop body of `WorkflowProcessor.checkTriggerDependency`
(workflow_processor.go): walk the workflows of the dependency trigger in
order; fail `(false, false)` on a workflow with no runs at the SHA, fail
`(false, status == in_progress)` on a latest run whose conclusion is
neither `success` nor `skipped`, and succeed `(true, false)` when every
workflow passes.  `runsOf w` is the response of
`ListWorkflowRunsByFileName` for `w` at the head SHA (latest first). -/
def depGateLoop (runsOf : String → Except String (List WorkflowRun)) :
    List String → Except String (Bool × Bool)
  | [] => .ok (true, false)
  | w :: ws =>
    match runsOf w with
    | .error e => .error ("failed to list workflow runs for " ++ w ++ ": " ++ e)
    | .ok runs =>
      match runs with
      | [] => .ok (false, false)
      | latestRun :: _ =>
        if latestRun.conclusion != "success" && latestRun.conclusion != "skipped" then
          .ok (false, latestRun.status == "in_progress")
        else
          depGateLoop runsOf ws

/-- Embedding of `WorkflowProcessor.checkTriggerDependency`
(workflow_processor.go): resolve the dependency trigger in the
configuration and run the per-workflow gate loop.  The model identifies the
`GetTotalCount` field of the listing response with the length of the
returned run list. -/
def checkTriggerDependency (triggers : List (Pattern × TriggerConfig))
    (runsOf : String → Except String (List WorkflowRun)) (dep : Pattern) :
    Except String (Bool × Bool) :=
  match lookupTrigger triggers dep with
  | none => .error "dependency trigger not found in configuration"
  | some tc => depGateLoop runsOf tc.workflows

/-- The dependency loop of `WorkflowProcessor.processWorkflowsForTrigger`
(workflow_processor.go): gate every phrase in `depends-on` in order,
surfacing a human-readable error on the first failing gate. -/
def processDeps (triggers : List (Pattern × TriggerConfig))
    (runsOf : String → Except String (List WorkflowRun)) :
    List Pattern → Except String Unit
  | [] => .ok ()
  | dep :: rest =>
    match checkTriggerDependency triggers runsOf dep with
    | .error _ => .error "failed to check trigger dependency"
    | .ok g =>
      if !g.1 then
        .error (if g.2 then
            "Skipping trigger: dependency is still in progress"
          else
            "Skipping trigger: dependency has not completed successfully")
      else
        processDeps triggers runsOf rest

/-- A workflow passes the dependency gate when it has at least one run at
the SHA and the latest run concluded `success` or `skipped`. -/
def gateGood (runsOf : String → Except String (List WorkflowRun))
    (w : String) : Prop :=
  ∃ r rest, runsOf w = .ok (r :: rest) ∧
    (r.conclusion = "success" ∨ r.conclusion = "skipped")

/-- An issue comment as returned by the forge: its body and creation time
(seconds since the epoch). -/
structure IssueComment where
  body : String
  createdAt : Int
  deriving DecidableEq, Repr

/-- The constant `recentCutoff` of workflow_processor.go (−15 minutes),
expressed in seconds. -/
def recentCutoffSeconds : Int := 15 * 60

/-- The constant `commentSince` of workflow_processor.go (−3 hours),
expressed in seconds. -/
def commentSinceSeconds : Int := 3 * 3600

/-- The constant `commentLookbackLimit` of workflow_processor.go. -/
def commentLookbackLimit : Nat := 100

/-- The comment scan of `WorkflowProcessor.processDependantWorkflows`
(workflow_processor.go): walk the comments in order; on each body matching
the trigger phrase record that body, and stop with the recent flag set as
soon as a matching comment is younger than `recent`.  Returns the recorded
body (the last match seen) and the recent flag. -/
def scanComments (p : Pattern) (recent : Int) :
    List IssueComment → Option String × Bool
  | [] => (none, false)
  | c :: cs =>
    if patternMatches p c.body then
      if recent < c.createdAt then (some c.body, true)
      else
        let r := scanComments p recent cs
        (some (r.1.getD c.body), r.2)
    else
      scanComments p recent cs

/-- The innermost workflow loop of
`WorkflowProcessor.processDependantWorkflows` for one dependency trigger:
for each workflow of the dependency whose filename equals the basename of
the completed run, evaluate the gate and, when it passes and the comment
lookup succeeded, scan the window for a matching comment; post (return) the
found body when it is non-empty and no match is recent.  `now` is the
current time in seconds. -/
def dependantTryWorkflow (triggers : List (Pattern × TriggerConfig))
    (runsOf : String → Except String (List WorkflowRun))
    (phrase : Pattern) (dep : Pattern) (baseName : String)
    (commentsRes : Except String (List IssueComment)) (now : Int)
    (w : String) : Option String :=
  if baseName = w then
    let satisfied :=
      match checkTriggerDependency triggers runsOf dep with
      | .error _ => false
      | .ok g => g.1
    if satisfied then
      match commentsRes with
      | .error _ => none
      | .ok comments =>
        let r := scanComments phrase (now - recentCutoffSeconds) comments
        match r.1 with
        | some found =>
          if 0 < found.length && !r.2 then some found else none
        | none => none
    else none
  else none

def dependantScanWorkflows (triggers : List (Pattern × TriggerConfig))
    (runsOf : String → Except String (List WorkflowRun))
    (phrase : Pattern) (dep : Pattern) (baseName : String)
    (commentsRes : Except String (List IssueComment)) (now : Int) :
    List String → Option String
  | [] => none
  | w :: ws =>
    match dependantTryWorkflow triggers runsOf phrase dep baseName
        commentsRes now w with
    | some found => some found
    | none =>
      dependantScanWorkflows triggers runsOf phrase dep baseName
        commentsRes now ws

/-- The dependency loop of `WorkflowProcessor.processDependantWorkflows` for
one trigger `(phrase, tc)`: walk the depends-on phrases; a phrase missing
from the trigger map aborts with an error, otherwise scan the workflows of
that dependency; the first workflow that posts ends the processing of this
trigger.  Returns the body posted for this trigger, if any. -/
def processDependantOneTrigger (triggers : List (Pattern × TriggerConfig))
    (runsOf : String → Except String (List WorkflowRun))
    (phrase : Pattern) (tc : TriggerConfig) (baseName : String)
    (commentsRes : Except String (List IssueComment)) (now : Int) :
    Except String (Option String) :=
  go tc.dependsOn
where
  go : List Pattern → Except String (Option String)
    | [] => .ok none
    | dep :: deps =>
      match lookupTrigger triggers dep with
      | none => .error "dependency trigger not found in Ariane trigger config"
      | some dtc =>
        match dependantScanWorkflows triggers runsOf phrase dep baseName
            commentsRes now dtc.workflows with
        | some found => .ok (some found)
        | none => go deps

/-- The pull-request fields the handlers read (`github.PullRequest`). -/
structure PRData where
  state : String
  headRef : String
  headSHA : String
  baseRef : String
  baseSHA : String
  headOwner : String
  headRepo : String
  deriving DecidableEq, Repr

/-- The constant `DefaultMaxRetryAttempts` of `internal/config/server.go`. -/
def DefaultMaxRetryAttempts : Nat := 3

/-- The sleep duration, in whole seconds, computed by `getPullRequest`
(issue_comment.go) before retrying after the failed attempt with 0-based
index `attempt`: Go evaluates
`time.Duration(math.Pow(2, float64(attempt-1))) * time.Second`, and the
conversion of the float `2^(attempt-1)` to an integer duration truncates,
so attempt 0 yields 0 seconds (0.5 truncated), attempt 1 yields 1, attempt
2 yields 2, and so on; this equals `2 ^ attempt / 2` in `Nat`. -/
def backoffSeconds (attempt : Nat) : Nat := 2 ^ attempt / 2

/-- The retry loop of `getPullRequest` (issue_comment.go): attempts are
indexed from 0 up to `maxRetryAttempts`; a failed attempt with retries
remaining sleeps `backoffSeconds` of its index and retries; the error of
the final attempt is returned.  `fetch i` is the response of the `i`-th
`PullRequests.Get` call and `remaining` the number of retries still
allowed (`maxRetryAttempts - attempt` in the Go loop).  Returns the sleeps
performed (in order) and the final outcome. -/
def getPullRequestAux (fetch : Nat → Except String PRData) :
    Nat → Nat → List Nat × Except String PRData
  | attempt, 0 =>
    match fetch attempt with
    | .ok pr => ([], .ok pr)
    | .error e => ([], .error e)
  | attempt, r + 1 =>
    match fetch attempt with
    | .ok pr => ([], .ok pr)
    | .error _ =>
      let next := getPullRequestAux fetch (attempt + 1) r
      (backoffSeconds attempt :: next.1, next.2)

/-- Embedding of `getPullRequest` (issue_comment.go): run the retry loop
from attempt 0 with `maxRetryAttempts` retries allowed; a pull request
whose state is not `open` is turned into the error
"pull request is not open". -/
def getPullRequest (fetch : Nat → Except String PRData)
    (maxRetryAttempts : Nat) : List Nat × Except String PRData :=
  let r := getPullRequestAux fetch 0 maxRetryAttempts
  match r.2 with
  | .error e => (r.1, .error e)
  | .ok pr =>
    if pr.state != "open" then (r.1, .error "pull request is not open")
    else (r.1, .ok pr)

/-- Go `re.FindStringSubmatch body` for a trigger phrase compiled against
the whole comment body (anchored): `some` of the full match followed by the
captured groups when the phrase covers the entire body, `none` otherwise.
For `lit s` the body must equal `s`; for `litCap s` the body must start
with `s` and have at least one further character, which forms the single
capture group. -/
def findStringSubmatchAnchored (p : Pattern) (body : String) :
    Option (List String) :=
  match p with
  | .lit s => if body = s then some [body] else none
  | .litCap s =>
    if s.toList.isPrefixOf body.toList && s.toList.length < body.toList.length then
      some [body, ⟨body.toList.drop s.toList.length⟩]
    else none

/-- Modelled from the spec: `ArianeConfig.CheckForTrigger` of the
`internal/config` package, whose body is absent from the sources.  Spec
section 4.2: find the first trigger whose compiled regex produces a match
on the comment body and return the submatch (full match plus capture
groups) with the workflows and depends-on lists of the trigger, or
`(nil, nil, nil)` when no trigger matches.  The matching is against the
whole body, as pinned by the in-repo test `Test_CheckForTrigger`: the
phrase `/cute` does not match the body `/cute cilium/cute-nationwide`. -/
def checkForTrigger (triggers : List (Pattern × TriggerConfig))
    (comment : String) :
    Option (List String) × List String × List Pattern :=
  match triggers with
  | [] => (none, [], [])
  | (p, tc) :: rest =>
    match findStringSubmatchAnchored p comment with
    | some submatch => (some submatch, tc.workflows, tc.dependsOn)
    | none => checkForTrigger rest comment

/-- A minimal embedding of Go `json.Marshal` on a string value: the string
wrapped in quotes with backslash and quote characters escaped (the only
escapes the configuration phrases exercise). -/
def jsonEncodeString (s : String) : String :=
  "\"" ++ String.join (s.toList.map (fun c =>
    if c = '"' then "\\\""
    else if c = '\\' then "\\\\"
    else String.singleton c)) ++ "\""

/-- Embedding of `WorkflowProcessor.createWorkflowDispatchEvent`
(workflow_processor.go): the `workflow_dispatch` request carries the ref
and the inputs PR-number, context-ref, SHA and base-SHA; when the submatch
has a capture group the first group is added, JSON-encoded, under
`extra-args`. -/
def createWorkflowDispatchEvent (prNumber : Int)
    (contextRef headSHA baseSHA : String) (submatch : List String) :
    String × List (String × String) :=
  let inputs := [("PR-number", toString prNumber), ("context-ref", contextRef),
                 ("SHA", headSHA), ("base-SHA", baseSHA)]
  if 1 < submatch.length then
    (contextRef,
      inputs ++ [("extra-args", jsonEncodeString (submatch.getD 1 ""))])
  else
    (contextRef, inputs)

/-- The per-stage verification of `WorkflowProcessor.processStages`
(workflow_processor.go): for each workflow of the stage fetch its runs at
the head SHA; an errored fetch aborts the handler with the error, a run
with conclusion other than `success` aborts the handler silently, and only
a stage whose every fetched run concluded `success` passes.  Note the loop
iterates over the fetched runs, so a workflow with no runs at the SHA
passes vacuously. -/
inductive StageCheck where
  | fetchErr (e : String)
  | nonSuccess
  | pass
  deriving DecidableEq, Repr

/-- The inner workflow loop of the per-stage verification. -/
def checkStage (runsOf : String → Except String (List WorkflowRun)) :
    List String → StageCheck
  | [] => .pass
  | w :: ws =>
    match runsOf w with
    | .error e => .fetchErr e
    | .ok runs =>
      if runs.all (fun r => r.conclusion == "success") then
        checkStage runsOf ws
      else
        .nonSuccess

/-- The stage loop of `WorkflowProcessor.processStages`: process the
matched stages in order; a failed fetch returns its error, a non-success
run returns nil (aborting all remaining stages), and a passing stage posts
its command (a failed post is logged and processing continues). -/
def stagesLoop (runsOf : String → Except String (List WorkflowRun))
    (prNumber : Int) : List Stage → List ForgeCall × Except String Unit
  | [] => ([], .ok ())
  | st :: rest =>
    match checkStage runsOf st.workflows with
    | .fetchErr e => ([], .error e)
    | .nonSuccess => ([], .ok ())
    | .pass =>
      let r := stagesLoop runsOf prNumber rest
      (.createComment prNumber st.command :: r.1, r.2)

/-- Embedding of `WorkflowProcessor.processStages` (workflow_processor.go):
on a successful workflow run, when stages are configured with a non-empty
label and the pull request carries that label, the stages whose workflow
set contains the basename of the completed workflow are verified in order and
their commands posted.  The Go loop appends a stage once per matching
occurrence in its workflow list, hence the flattened construction. -/
def processStages (stagesConfig : Option StagesConfig) (labels : List String)
    (runsOf : String → Except String (List WorkflowRun)) (prNumber : Int)
    (workflowPath : String) : List ForgeCall × Except String Unit :=
  match stagesConfig with
  | none => ([], .ok ())
  | some sc =>
    if sc.label = "" then ([], .ok ())
    else if !(labels.contains sc.label) then ([], .ok ())
    else
      let workflowFileName := filepathBase workflowPath
      let matched := (sc.stages.map (fun st =>
        (st.workflows.filter (fun w => w == workflowFileName)).map
          (fun _ => st))).flatten
      if matched.isEmpty then ([], .ok ())
      else stagesLoop runsOf prNumber matched

/-- The characterization of which matched stage posts: every fetched run of
every workflow of this and of every earlier matched stage concluded
success. -/
def stagePasses (runsOf : String → Except String (List WorkflowRun))
    (st : Stage) : Prop :=
  ∀ w ∈ st.workflows, ∃ runs, runsOf w = .ok runs ∧
    ∀ r ∈ runs, r.conclusion = "success"

/-- The outcome of one team-membership query
(`GetTeamMembershipBySlug`). -/
inductive TeamQueryResult where
  | ok (state : String)
  | notFound
  | otherErr
  deriving DecidableEq, Repr

/-- The team loop of `isAllowedTeamMember` (workflow_utils.go): a non-404
error denies immediately (fail closed); a 404 or a non-active membership
tries the next team; an active membership allows. -/
def isAllowedLoop (teamRes : String → TeamQueryResult) : List String → Bool
  | [] => false
  | t :: ts =>
    match teamRes t with
    | .otherErr => false
    | .notFound => isAllowedLoop teamRes ts
    | .ok st => if st == "active" then true else isAllowedLoop teamRes ts

/-- Embedding of `isAllowedTeamMember` (workflow_utils.go): an empty
allowlist allows everyone. -/
def isAllowedTeamMember (cfg : ArianeConfig)
    (teamRes : String → TeamQueryResult) : Bool :=
  if cfg.allowedTeams.isEmpty then true
  else isAllowedLoop teamRes cfg.allowedTeams

/-- Embedding of `determineContextRef` (issue_comment.go): fork pull
requests resolve the configuration and workflows at the base ref, same-repo
pull requests at the head ref; returns
`(context-ref, head SHA, base SHA)`. -/
def determineContextRef (pr : PRData) (owner repo : String) :
    String × String × String :=
  if pr.headOwner != owner || pr.headRepo != repo then
    (pr.baseRef, pr.headSHA, pr.baseSHA)
  else
    (pr.headRef, pr.headSHA, pr.baseSHA)

/-- The environment of `processWorkflowsForTrigger`: the responses of the
run listings used by the dependency gate, the PR file listing, the path
gate (the `internal/config` path evaluation, absent from the sources) per
workflow, and the per-workflow decision environment. -/
structure TriggerEnv where
  depRunsOf : String → Except String (List WorkflowRun)
  filesRes : Except String Unit
  pathGateOf : String → Bool
  procEnvOf : String → ProcEnv

/-- Embedding of `WorkflowProcessor.processWorkflowsForTrigger`
(workflow_processor.go): gate the dependencies, fetch the PR files, run the
decision engine on each workflow in declaration order, and post the status
table when verbose and workflows-report are both set and statuses were
collected. -/
def processWorkflowsForTrigger (cfg : ArianeConfig) (prNumber : Int)
    (sha : String) (workflowsToTrigger : List String)
    (dependsOn : List Pattern) (env : TriggerEnv) :
    List ForgeCall × Except String Unit :=
  match processDeps cfg.triggers env.depRunsOf dependsOn with
  | .error e => ([], .error e)
  | .ok _ =>
    match env.filesRes with
    | .error e =>
      (ForgeCall.listFiles prNumber ::
        (if cfg.getVerbose then
          [.createComment prNumber
            ("Failed to retrieve pull request files: " ++ e)]
        else []), .error e)
    | .ok _ =>
      let results := workflowsToTrigger.map (fun w =>
        processWorkflow cfg.getReportAllWorkflows (env.pathGateOf w) w sha
          (env.procEnvOf w))
      let statuses := results.filterMap Prod.snd
      (ForgeCall.listFiles prNumber :: (results.map Prod.fst).flatten ++
        (if cfg.getVerbose && cfg.getWorkflowsReport && 0 < statuses.length
         then [.createComment prNumber (buildWorkflowStatusTable statuses)]
         else []),
        .ok ())

/-- Embedding of Go `strings.TrimSpace`: leading and trailing whitespace
removed. -/
def trimSpace (s : String) : String :=
  ⟨((s.toList.dropWhile Char.isWhitespace).reverse.dropWhile
      Char.isWhitespace).reverse⟩

/-- Embedding of Go `strings.HasPrefix`. -/
def hasPrefixStr (s p : String) : Bool := p.toList.isPrefixOf s.toList

/-- Embedding of Go `strings.HasSuffix`. -/
def hasSuffixStr (s p : String) : Bool :=
  p.toList.reverse.isPrefixOf s.toList.reverse

/-- The fields of an issue-comment event the handler reads
(issue_comment.go). -/
structure CommentEvent where
  isPullRequest : Bool
  action : String
  commentID : Int
  commentAuthor : String
  commentBody : String
  prNumber : Int
  deriving Repr

/-- The environment of the two event handlers: the PR fetch responses by
attempt, the configuration fetch, the team-membership queries, the two
reaction calls, and the trigger-processing environment. -/
structure HandleEnv where
  fetch : Nat → Except String PRData
  configRes : Except String ArianeConfig
  teamRes : String → TeamQueryResult
  eyesRes : Except String Unit
  rocketRes : Except String Unit
  triggerEnv : TriggerEnv

/-- Embedding of `PRCommentHandler.Handle` (issue_comment.go): filter to
new pull-request comments that start with `/` after trimming, reject
foreign bots, fetch the pull request with retries, load the configuration,
authorize, match a trigger, react with eyes, process the workflows, and
react with rocket. -/
def issueCommentHandle (owner repo : String) (ev : CommentEvent)
    (env : HandleEnv) (maxRetryAttempts : Nat) :
    List ForgeCall × Except String Unit :=
  if !ev.isPullRequest then ([], .ok ())
  else if ev.action != "created" then ([], .ok ())
  else if !(hasPrefixStr (trimSpace ev.commentBody) "/") then ([], .ok ())
  else if hasSuffixStr ev.commentAuthor "[bot]" &&
      !(hasPrefixStr ev.commentAuthor owner) then
    ([.createComment ev.prNumber
        ("Issue comment was created by an unsupported bot: " ++
          ev.commentAuthor)], .ok ())
  else
    let botUser := hasSuffixStr ev.commentAuthor "[bot]"
    match (getPullRequest env.fetch maxRetryAttempts).2 with
    | .error e =>
      ([.createComment ev.prNumber
          ("Failed to retrieve pull request: " ++ e)], .error e)
    | .ok pr =>
      match env.configRes with
      | .error e =>
        ([.createComment ev.prNumber "Failed to retrieve config file"],
          .error e)
      | .ok cfg =>
        if !botUser && !(isAllowedTeamMember cfg env.teamRes) then
          ((if cfg.getVerbose then
              [.createComment ev.prNumber
                ("Comment by " ++ ev.commentAuthor ++ " not allowed")]
            else []), .ok ())
        else
          match checkForTrigger cfg.triggers ev.commentBody with
          | (none, _, _) =>
            ((if cfg.getVerbose then
                [.createComment ev.prNumber
                  ("Command " ++ ev.commentBody ++ " not found")]
              else []), .ok ())
          | (some _, workflowsToTrigger, dependsOn) =>
            match env.eyesRes with
            | .error e => ([.createReaction "eyes"], .error e)
            | .ok _ =>
              let sha := (determineContextRef pr owner repo).2.1
              let r := processWorkflowsForTrigger cfg ev.prNumber sha
                workflowsToTrigger dependsOn env.triggerEnv
              match r.2 with
              | .error e =>
                (.createReaction "eyes" :: r.1 ++
                  (if cfg.getVerbose then
                    [.createComment ev.prNumber
                      ("Failed to process workflows for trigger: " ++ e)]
                  else []), .error e)
              | .ok _ =>
                match env.rocketRes with
                | .error e =>
                  (.createReaction "eyes" :: r.1 ++ [.createReaction "rocket"],
                    .error e)
                | .ok _ =>
                  (.createReaction "eyes" :: r.1 ++ [.createReaction "rocket"],
                    .ok ())

/-- The trigger phrase synthesized on pull-request lifecycle events
(`defaultRunTrigger` in pull_request.go). -/
def defaultRunTrigger : String := "/default"

/-- Embedding of `PullRequestHandler.Handle` (pull_request.go): filter to
the opened, reopened and synchronize actions, fetch the pull request with
retries, load the configuration, match the synthetic `/default` trigger,
react on the PR with eyes, process the workflows, and react with rocket. -/
def pullRequestHandle (owner repo : String) (action : String) (prNumber : Int)
    (env : HandleEnv) (maxRetryAttempts : Nat) :
    List ForgeCall × Except String Unit :=
  if !(["opened", "reopened", "synchronize"].contains action) then
    ([], .ok ())
  else
    match (getPullRequest env.fetch maxRetryAttempts).2 with
    | .error e =>
      ([.createComment prNumber ("Failed to retrieve pull request: " ++ e)],
        .error e)
    | .ok pr =>
      match env.configRes with
      | .error e =>
        ([.createComment prNumber "Failed to retrieve config file"], .error e)
      | .ok cfg =>
        match checkForTrigger cfg.triggers defaultRunTrigger with
        | (none, _, _) => ([], .ok ())
        | (some _, workflowsToTrigger, dependsOn) =>
          match env.eyesRes with
          | .error e => ([.createReaction "eyes"], .error e)
          | .ok _ =>
            let sha := (determineContextRef pr owner repo).2.1
            let r := processWorkflowsForTrigger cfg prNumber sha
              workflowsToTrigger dependsOn env.triggerEnv
            match r.2 with
            | .error e =>
              (.createReaction "eyes" :: r.1 ++
                (if cfg.getVerbose then
                  [.createComment prNumber
                    ("Failed to process workflows for trigger: " ++ e)]
                else []), .error e)
            | .ok _ =>
              match env.rocketRes with
              | .error e =>
                (.createReaction "eyes" :: r.1 ++ [.createReaction "rocket"],
                  .error e)
              | .ok _ =>
                (.createReaction "eyes" :: r.1 ++ [.createReaction "rocket"],
                  .ok ())

/-- Fixture for the C10 witness: a closed pull request. -/
def notOpenFixturePR : PRData :=
  { state := "closed", headRef := "b", headSHA := "h", baseRef := "main",
    baseSHA := "s", headOwner := "owner", headRepo := "repo" }

/-- Fixture for the C10 witness: an empty configuration. -/
def notOpenFixtureConfig : ArianeConfig :=
  { feedback := ⟨none, none⟩, triggers := [], allowedTeams := [],
    rerunConfig := none, stagesConfig := none }

/-- Fixture for the C10 witness: an idle per-workflow environment. -/
def notOpenFixtureProcEnv : ProcEnv :=
  { runsRes := .ok [], jobsRes := .ok [], rerunJobRes := .ok (),
    dispatchRes := .ok (), getWorkflowRes := .ok "W", checkRunRes := .ok () }

/-- Fixture for the C10 witness: the handler environment returning the
closed pull request. -/
def notOpenFixtureEnv : HandleEnv :=
  { fetch := fun _ => .ok notOpenFixturePR,
    configRes := .ok notOpenFixtureConfig,
    teamRes := fun _ => .notFound, eyesRes := .ok (), rocketRes := .ok (),
    triggerEnv :=
      { depRunsOf := fun _ => .ok [], filesRes := .ok (),
        pathGateOf := fun _ => true,
        procEnvOf := fun _ => notOpenFixtureProcEnv } }

/-- Fixture for the C10 witness: a fresh `/test` comment event. -/
def notOpenFixtureEvent : CommentEvent :=
  { isPullRequest := true, action := "created", commentID := 1,
    commentAuthor := "trustedauthor", commentBody := "/test", prNumber := 0 }

/-- C1: on a failure event with a rerun section present, the
rerun-failed-jobs request is issued exactly when the exclude list does not
match the path, the include list is empty or matches the path, the attempt
count is within `max-retries`, and some job failed; and with
`max-retries = 0` no rerun is ever issued for a (1-indexed) attempt. -/
theorem handleFailedRun_rerun_iff (rc : RerunConfig) (prCount : Nat)
    (path : String) (runID : Int) (run : WorkflowRun)
    (jobs : List WorkflowJob) (rerunRes : Except String Unit)
    (hpr : prCount ≠ 0) :
    (ForgeCall.rerunFailedJobsReq runID ∈
        (handleFailedRun (some rc) prCount path runID (.ok run) (.ok jobs)
          rerunRes).1 ↔
      (∀ ex ∈ rc.excludeWorkflows, ¬ strContains path ex) ∧
      (rc.workflows = [] ∨ ∃ al ∈ rc.workflows, strContains path al) ∧
      run.runAttempt ≤ rc.maxRetries ∧
      (∃ j ∈ jobs, j.conclusion = "failure")) ∧
    (rc.maxRetries = 0 → 1 ≤ run.runAttempt →
      ForgeCall.rerunFailedJobsReq runID ∉
        (handleFailedRun (some rc) prCount path runID (.ok run) (.ok jobs)
          rerunRes).1) := by
  have hmain : ForgeCall.rerunFailedJobsReq runID ∈
        (handleFailedRun (some rc) prCount path runID (.ok run) (.ok jobs)
          rerunRes).1 ↔
      (∀ ex ∈ rc.excludeWorkflows, ¬ strContains path ex) ∧
      (rc.workflows = [] ∨ ∃ al ∈ rc.workflows, strContains path al) ∧
      run.runAttempt ≤ rc.maxRetries ∧
      (∃ j ∈ jobs, j.conclusion = "failure") := by
    unfold handleFailedRun
    simp only [if_neg hpr]
    by_cases hex : rc.excludeWorkflows.any (fun ex => strContains path ex)
    · simp only [hex, if_true]
      simp only [List.any_eq_true] at hex
      obtain ⟨ex, hmem, hc⟩ := hex
      simp only [List.mem_nil_iff, false_iff]
      intro ⟨h1, _⟩
      exact h1 ex hmem hc
    · simp only [hex]
      have hexP : ∀ ex ∈ rc.excludeWorkflows, ¬ strContains path ex := by
        intro ex hmem hc
        exact hex (List.any_eq_true.mpr ⟨ex, hmem, hc⟩)
      simp only [if_false, Bool.false_eq_true]
      by_cases hinc : 0 < rc.workflows.length ∧
          ¬ rc.workflows.any (fun al => strContains path al) = true
      · have hb : (decide (0 < rc.workflows.length) &&
            !(rc.workflows.any (fun al => strContains path al))) = true := by
          simp only [Bool.and_eq_true, decide_eq_true_eq]
          refine ⟨hinc.1, ?_⟩
          cases h2 : rc.workflows.any (fun al => strContains path al)
          · rfl
          · exact absurd h2 hinc.2
        simp only [hb, if_true]
        constructor
        · intro hmem
          exact absurd hmem (by simp)
        · rintro ⟨-, h2, -⟩
          rcases h2 with h2 | ⟨al, hmem, hc⟩
          · rw [h2] at hinc
            exact absurd hinc.1 (by simp)
          · exact (hinc.2 (List.any_eq_true.mpr ⟨al, hmem, hc⟩)).elim
      · have hb : (decide (0 < rc.workflows.length) &&
            !(rc.workflows.any (fun al => strContains path al))) = false := by
          cases h1 : decide (0 < rc.workflows.length)
          · simp
          · cases h2 : rc.workflows.any (fun al => strContains path al)
            · exact absurd ⟨by simpa using h1, by simp [h2]⟩ hinc
            · simp [h2]
        simp only [hb, Bool.false_eq_true, if_false]
        have hincP : rc.workflows = [] ∨ ∃ al ∈ rc.workflows, strContains path al := by
          by_cases hnil : rc.workflows = []
          · exact Or.inl hnil
          · right
            cases h2 : rc.workflows.any (fun al => strContains path al)
            · exact absurd ⟨List.length_pos.mpr hnil, by simp [h2]⟩ hinc
            · simpa [List.any_eq_true] using h2
        by_cases hatt : rc.maxRetries < run.runAttempt
        · simp only [if_pos hatt]
          constructor
          · intro hmem
            exact absurd hmem (by simp)
          · rintro ⟨-, -, h3, -⟩
            omega
        · simp only [if_neg hatt]
          unfold rerunFailedJobs
          by_cases hjob : jobs.any (fun j => j.conclusion == "failure")
          · simp only [hjob, if_true]
            constructor
            · intro _
              refine ⟨hexP, hincP, by omega, ?_⟩
              simpa [List.any_eq_true] using hjob
            · intro _
              simp
          · simp only [hjob, Bool.false_eq_true, if_false]
            constructor
            · intro hmem
              exact absurd hmem (by simp)
            · rintro ⟨-, -, -, j, hmemj, hc⟩
              exact absurd (List.any_eq_true.mpr ⟨j, hmemj, by simp [hc]⟩) hjob
  refine ⟨hmain, ?_⟩
  intro h0 h1 hmem
  have := hmain.mp hmem
  omega

/-- C1 witness: concrete event where exclusion is empty, the include list
matches, the attempt is within bounds, and a job failed, so the rerun
request is issued. -/
theorem handleFailedRun_rerun_iff_witness :
    ForgeCall.rerunFailedJobsReq 123 ∈
      (handleFailedRun
        (some { maxRetries := 3, workflows := ["conformance-e2e.yaml"],
                excludeWorkflows := [] })
        1 ".github/workflows/conformance-e2e.yaml" 123
        (.ok { id := 123, status := "completed", conclusion := "failure",
               runAttempt := 1 })
        (.ok [{ id := 1, name := "test-job-1", conclusion := "failure" }])
        (.ok ())).1 :=
  ((handleFailedRun_rerun_iff
      { maxRetries := 3, workflows := ["conformance-e2e.yaml"],
        excludeWorkflows := [] }
      1 ".github/workflows/conformance-e2e.yaml" 123
      { id := 123, status := "completed", conclusion := "failure",
        runAttempt := 1 }
      [{ id := 1, name := "test-job-1", conclusion := "failure" }]
      (.ok ()) (by decide)).1).mpr
    ⟨by simp, Or.inr ⟨"conformance-e2e.yaml", by simp, by decide⟩, by decide,
      ⟨{ id := 1, name := "test-job-1", conclusion := "failure" }, by simp, rfl⟩⟩

/-- C8: with no `rerun` section in the configuration, the failure handler
returns successfully and issues no forge call at all: it does not fetch the
run, list its jobs, or request a rerun. -/
theorem handleFailedRun_noRerunConfig_frame (pullRequestCount : Nat)
    (workflowPath : String) (runID : Int)
    (getRunRes : Except String WorkflowRun)
    (jobsRes : Except String (List WorkflowJob))
    (rerunRes : Except String Unit) :
    handleFailedRun none pullRequestCount workflowPath runID getRunRes
        jobsRes rerunRes = ([], .ok ()) := by
  unfold handleFailedRun
  by_cases h : pullRequestCount = 0 <;> simp [h]

/-- C2: the run-history check of the decision engine.  A most recent prior
run that completed with conclusion success, skipped or failure yields no
workflow dispatch and no check-run creation (failure additionally starts
the asynchronous rerun task, which lists the jobs of that run); a completed
run with any other conclusion, or the absence of runs, proceeds to the path
gate and dispatches when the gate allows it. -/
theorem processWorkflow_runHistory (reportAll pathGate : Bool)
    (workflow sha : String) (env : ProcEnv) :
    (∀ r rest, env.runsRes = .ok (r :: rest) → r.status = "completed" →
      (r.conclusion = "success" ∨ r.conclusion = "skipped" ∨
          r.conclusion = "failure") →
        (∀ w, ForgeCall.dispatchWorkflow w ∉
            (processWorkflow reportAll pathGate workflow sha env).1) ∧
        (∀ n s, ForgeCall.createCheckRun n s ∉
            (processWorkflow reportAll pathGate workflow sha env).1) ∧
        (r.conclusion = "failure" →
          ForgeCall.listJobs r.id ∈
            (processWorkflow reportAll pathGate workflow sha env).1)) ∧
    (∀ r rest, env.runsRes = .ok (r :: rest) → r.status = "completed" →
      r.conclusion ≠ "success" → r.conclusion ≠ "skipped" →
      r.conclusion ≠ "failure" → pathGate = true →
        ForgeCall.dispatchWorkflow workflow ∈
          (processWorkflow reportAll pathGate workflow sha env).1) ∧
    (env.runsRes = .ok [] → pathGate = true →
      ForgeCall.dispatchWorkflow workflow ∈
        (processWorkflow reportAll pathGate workflow sha env).1) := by
  refine ⟨?_, ?_, ?_⟩
  · intro r rest hruns hst hconc
    have hskip : (shouldSkipWorkflow workflow sha env).1 = true := by
      unfold shouldSkipWorkflow
      rw [hruns]
      simp only [hst]
      rcases hconc with h | h | h <;> simp [h]
    have htr : (processWorkflow reportAll pathGate workflow sha env).1 =
        (shouldSkipWorkflow workflow sha env).2 := by
      unfold processWorkflow
      simp [hskip]
    rw [htr]
    unfold shouldSkipWorkflow
    rw [hruns]
    simp only [hst]
    rcases hconc with h | h | h
    · simp [h]
    · simp [h]
    · simp only [h]
      refine ⟨?_, ?_, ?_⟩
      · intro w
        cases hj : env.jobsRes with
        | error e => simp [processorRerunFailedJobs, hj]
        | ok jobs =>
          cases hr : env.rerunJobRes <;>
            simp only [processorRerunFailedJobs, hj, hr] <;>
            (repeat' split) <;> simp_all
      · intro n s
        cases hj : env.jobsRes with
        | error e => simp [processorRerunFailedJobs, hj]
        | ok jobs =>
          cases hr : env.rerunJobRes <;>
            simp only [processorRerunFailedJobs, hj, hr] <;>
            (repeat' split) <;> simp_all
      · intro _
        cases hj : env.jobsRes with
        | error e => simp [processorRerunFailedJobs, hj]
        | ok jobs =>
          cases hr : env.rerunJobRes <;>
            simp only [processorRerunFailedJobs, hj, hr] <;>
            (repeat' split) <;> simp_all
  · intro r rest hruns hst h1 h2 h3 hgate
    have hskip : (shouldSkipWorkflow workflow sha env).1 = false := by
      unfold shouldSkipWorkflow
      rw [hruns]
      simp [hst, h1, h2, h3]
    unfold processWorkflow
    simp only [hskip, hgate, Bool.false_eq_true, if_false, if_true]
    cases env.dispatchRes <;> simp
  · intro hruns hgate
    have hskip : (shouldSkipWorkflow workflow sha env).1 = false := by
      unfold shouldSkipWorkflow
      rw [hruns]
    unfold processWorkflow
    simp only [hskip, hgate, Bool.false_eq_true, if_false, if_true]
    cases env.dispatchRes <;> simp

/-- C2 witness: with a prior failed completed run, the engine neither
dispatches nor creates a check run and starts the rerun task; with a
cancelled prior run and an allowing path gate, it dispatches. -/
theorem processWorkflow_runHistory_witness :
    (ForgeCall.dispatchWorkflow "foo.yaml" ∉
      (processWorkflow true true "foo.yaml" "mock-sha"
        { runsRes := .ok [{ id := 99, status := "completed",
                            conclusion := "failure", runAttempt := 1 }],
          jobsRes := .ok [], rerunJobRes := .ok (), dispatchRes := .ok (),
          getWorkflowRes := .ok "Foo Workflow", checkRunRes := .ok () }).1) ∧
    (ForgeCall.listJobs 99 ∈
      (processWorkflow true true "foo.yaml" "mock-sha"
        { runsRes := .ok [{ id := 99, status := "completed",
                            conclusion := "failure", runAttempt := 1 }],
          jobsRes := .ok [], rerunJobRes := .ok (), dispatchRes := .ok (),
          getWorkflowRes := .ok "Foo Workflow", checkRunRes := .ok () }).1) ∧
    (ForgeCall.dispatchWorkflow "foo.yaml" ∈
      (processWorkflow true true "foo.yaml" "mock-sha"
        { runsRes := .ok [{ id := 7, status := "completed",
                            conclusion := "cancelled", runAttempt := 1 }],
          jobsRes := .ok [], rerunJobRes := .ok (), dispatchRes := .ok (),
          getWorkflowRes := .ok "Foo Workflow", checkRunRes := .ok () }).1) :=
  ⟨((processWorkflow_runHistory true true "foo.yaml" "mock-sha"
      { runsRes := .ok [{ id := 99, status := "completed",
                          conclusion := "failure", runAttempt := 1 }],
        jobsRes := .ok [], rerunJobRes := .ok (), dispatchRes := .ok (),
        getWorkflowRes := .ok "Foo Workflow", checkRunRes := .ok () }).1
      { id := 99, status := "completed", conclusion := "failure",
        runAttempt := 1 } [] rfl rfl (Or.inr (Or.inr rfl))).1 "foo.yaml",
   ((processWorkflow_runHistory true true "foo.yaml" "mock-sha"
      { runsRes := .ok [{ id := 99, status := "completed",
                          conclusion := "failure", runAttempt := 1 }],
        jobsRes := .ok [], rerunJobRes := .ok (), dispatchRes := .ok (),
        getWorkflowRes := .ok "Foo Workflow", checkRunRes := .ok () }).1
      { id := 99, status := "completed", conclusion := "failure",
        runAttempt := 1 } [] rfl rfl (Or.inr (Or.inr rfl))).2.2 rfl,
   ((processWorkflow_runHistory true true "foo.yaml" "mock-sha"
      { runsRes := .ok [{ id := 7, status := "completed",
                          conclusion := "cancelled", runAttempt := 1 }],
        jobsRes := .ok [], rerunJobRes := .ok (), dispatchRes := .ok (),
        getWorkflowRes := .ok "Foo Workflow", checkRunRes := .ok () }).2.1
      { id := 7, status := "completed", conclusion := "cancelled",
        runAttempt := 1 } [] rfl rfl (by decide) (by decide) (by decide) rfl)⟩

lemma depGateLoop_pass_iff (runsOf : String → Except String (List WorkflowRun))
    (ws : List String) :
    depGateLoop runsOf ws = .ok (true, false) ↔ ∀ w ∈ ws, gateGood runsOf w := by
  induction ws with
  | nil => simp [depGateLoop]
  | cons w ws ih =>
    unfold depGateLoop
    cases hw : runsOf w with
    | error e =>
      simp only [List.mem_cons]
      constructor
      · intro h
        exact absurd h (by simp)
      · intro h
        obtain ⟨r, rest, hr, -⟩ := h w (Or.inl rfl)
        rw [hw] at hr
        cases hr
    | ok runs =>
      cases runs with
      | nil =>
        simp only [List.mem_cons]
        constructor
        · intro h
          exact absurd h (by simp)
        · intro h
          obtain ⟨r, rest, hr, -⟩ := h w (Or.inl rfl)
          rw [hw] at hr
          cases hr
      | cons latestRun rs =>
        by_cases hc : latestRun.conclusion = "success" ∨ latestRun.conclusion = "skipped"
        · have hcond : (latestRun.conclusion != "success" &&
              latestRun.conclusion != "skipped") = false := by
            rcases hc with h | h <;> simp [h]
          simp only [hcond, Bool.false_eq_true, if_false, ih]
          constructor
          · intro h v hv
            rcases List.mem_cons.mp hv with h1 | h1
            · subst h1
              exact ⟨latestRun, rs, hw, hc⟩
            · exact h v h1
          · intro h v hv
            exact h v (List.mem_cons_of_mem _ hv)
        · have hcond : (latestRun.conclusion != "success" &&
              latestRun.conclusion != "skipped") = true := by
            push_neg at hc
            simp [bne_iff_ne, hc.1, hc.2]
          simp only [hcond, if_true]
          constructor
          · intro h
            injection h with h
            injection h with h1 h2
            exact Bool.noConfusion h1
          · intro h
            obtain ⟨r, rest, hr, hrc⟩ := h w (by simp)
            rw [hw] at hr
            injection hr with hr
            rw [List.cons_eq_cons] at hr
            exact absurd (hr.1 ▸ hrc) hc

lemma depGateLoop_firstFail (runsOf : String → Except String (List WorkflowRun))
    (pre : List String) (w : String) (post : List String)
    (hpre : ∀ v ∈ pre, gateGood runsOf v) :
    depGateLoop runsOf (pre ++ w :: post) = depGateLoop runsOf (w :: post) := by
  induction pre with
  | nil => simp
  | cons v vs ih =>
    obtain ⟨r, rest, hr, hrc⟩ := hpre v (by simp)
    have hcond : (r.conclusion != "success" && r.conclusion != "skipped") = false := by
      rcases hrc with h | h <;> simp [h]
    have := ih (fun u hu => hpre u (List.mem_cons_of_mem _ hu))
    simpa [depGateLoop, hr, hcond] using this

lemma depGateLoop_not_true_true (runsOf : String → Except String (List WorkflowRun))
    (ws : List String) : depGateLoop runsOf ws ≠ .ok (true, true) := by
  induction ws with
  | nil => simp [depGateLoop]
  | cons w ws ih =>
    cases hw : runsOf w with
    | error e => simp [depGateLoop, hw]
    | ok runs =>
      cases runs with
      | nil => simp [depGateLoop, hw]
      | cons r rs =>
        by_cases hc : (r.conclusion != "success" && r.conclusion != "skipped") = true
        · simp [depGateLoop, hw, hc]
        · have hcf : (r.conclusion != "success" && r.conclusion != "skipped") = false := by
            revert hc
            cases r.conclusion != "success" && r.conclusion != "skipped" <;> simp
          simpa [depGateLoop, hw, hcf] using ih

/-- C5: the dependency gate.  With the dependency trigger resolved, the gate
returns ok-(true,false) exactly when every workflow of the dependency has a
latest run at the head SHA concluded success or skipped; when the loop
reaches a workflow with no runs it returns (false,false); when it reaches a
workflow whose latest run concluded neither success nor skipped it returns
can-proceed false with in-progress true iff that run has status
in_progress; and the surrounding per-trigger loop accepts a depends-on list
exactly when every listed dependency gates to (true,false). -/
theorem checkTriggerDependency_gate (triggers : List (Pattern × TriggerConfig))
    (runsOf : String → Except String (List WorkflowRun)) (dep : Pattern)
    (tc : TriggerConfig) (hfound : lookupTrigger triggers dep = some tc) :
    (checkTriggerDependency triggers runsOf dep = .ok (true, false) ↔
      ∀ w ∈ tc.workflows, gateGood runsOf w) ∧
    (∀ pre w post, tc.workflows = pre ++ w :: post →
      (∀ v ∈ pre, gateGood runsOf v) → runsOf w = .ok [] →
        checkTriggerDependency triggers runsOf dep = .ok (false, false)) ∧
    (∀ pre w post r rest, tc.workflows = pre ++ w :: post →
      (∀ v ∈ pre, gateGood runsOf v) → runsOf w = .ok (r :: rest) →
      ¬ (r.conclusion = "success" ∨ r.conclusion = "skipped") →
        checkTriggerDependency triggers runsOf dep =
          .ok (false, r.status == "in_progress")) ∧
    (∀ deps : List Pattern,
      processDeps triggers runsOf deps = .ok () ↔
        ∀ d ∈ deps, checkTriggerDependency triggers runsOf d = .ok (true, false)) := by
  refine ⟨?_, ?_, ?_, ?_⟩
  · unfold checkTriggerDependency
    rw [hfound]
    exact depGateLoop_pass_iff runsOf tc.workflows
  · intro pre w post hsplit hpre hw
    unfold checkTriggerDependency
    rw [hfound]
    show depGateLoop runsOf tc.workflows = .ok (false, false)
    rw [hsplit, depGateLoop_firstFail runsOf pre w post hpre]
    simp [depGateLoop, hw]
  · intro pre w post r rest hsplit hpre hw hc
    unfold checkTriggerDependency
    rw [hfound]
    show depGateLoop runsOf tc.workflows = .ok (false, r.status == "in_progress")
    rw [hsplit, depGateLoop_firstFail runsOf pre w post hpre]
    have hcond : (r.conclusion != "success" && r.conclusion != "skipped") = true := by
      push_neg at hc
      simp [bne_iff_ne, hc.1, hc.2]
    simp [depGateLoop, hw, hcond]
  · intro deps
    induction deps with
    | nil => simp [processDeps]
    | cons d rest ih =>
      unfold processDeps
      cases hd : checkTriggerDependency triggers runsOf d with
      | error e =>
        simp only [List.mem_cons]
        constructor
        · intro h
          cases h
        · intro h
          rw [h d (Or.inl rfl)] at hd
          cases hd
      | ok g =>
        by_cases hg : g.1 = true
        · have hshape : g = (true, false) ∨ g = (true, true) := by
            rcases g with ⟨g1, g2⟩
            cases g2
            · exact Or.inl (by simp_all)
            · exact Or.inr (by simp_all)
          have hnotTT : g ≠ (true, true) := by
            intro hcon
            rw [hcon] at hd
            unfold checkTriggerDependency at hd
            cases hl : lookupTrigger triggers d with
            | none => rw [hl] at hd; cases hd
            | some tcd =>
              rw [hl] at hd
              exact depGateLoop_not_true_true runsOf tcd.workflows hd
          have hgval : g = (true, false) := by tauto
          subst hgval
          simp only [hg, Bool.not_true, Bool.false_eq_true, if_false, ih,
            List.mem_cons]
          constructor
          · intro h v hv
            rcases hv with h1 | h1
            · subst h1; exact hd
            · exact h v h1
          · intro h v hv
            exact h v (Or.inr hv)
        · have hbg : (!g.1) = true := by
            revert hg
            cases g.1 <;> simp
          simp only [hbg, if_true]
          constructor
          · intro h
            cases h
          · intro h
            have hdd := h d (by simp)
            rw [hdd] at hd
            injection hd with hd
            exact absurd (show g.1 = true by rw [← hd]) hg

/-- C5 witness: a single dependency trigger whose sole workflow has a
latest successful run gates to (true, false). -/
theorem checkTriggerDependency_gate_witness :
    checkTriggerDependency
      [(Pattern.lit "/dependency",
        { workflows := ["dependency.yaml"], dependsOn := [] })]
      (fun w => if w = "dependency.yaml" then
          .ok [{ id := 1, status := "completed", conclusion := "success",
                 runAttempt := 1 }]
        else .ok [])
      (Pattern.lit "/dependency") = .ok (true, false) :=
  ((checkTriggerDependency_gate
      [(Pattern.lit "/dependency",
        { workflows := ["dependency.yaml"], dependsOn := [] })]
      (fun w => if w = "dependency.yaml" then
          .ok [{ id := 1, status := "completed", conclusion := "success",
                 runAttempt := 1 }]
        else .ok [])
      (Pattern.lit "/dependency")
      { workflows := ["dependency.yaml"], dependsOn := [] }
      (by simp [lookupTrigger])).1).mpr
    (by
      intro w hw
      simp only [List.mem_singleton] at hw
      subst hw
      exact ⟨{ id := 1, status := "completed", conclusion := "success",
               runAttempt := 1 }, [], by simp, Or.inl rfl⟩)

lemma scanComments_recent_iff (p : Pattern) (recent : Int)
    (cs : List IssueComment) :
    (scanComments p recent cs).2 = true ↔
      ∃ c ∈ cs, patternMatches p c.body ∧ recent < c.createdAt := by
  induction cs with
  | nil => simp [scanComments]
  | cons c cs ih =>
    by_cases hm : patternMatches p c.body = true
    · by_cases hr : recent < c.createdAt
      · simp [scanComments, hm, hr]
      · simp only [scanComments, hm, if_true, if_neg hr]
        simp only [List.mem_cons]
        constructor
        · intro h
          obtain ⟨d, hd, h1, h2⟩ := ih.mp h
          exact ⟨d, Or.inr hd, h1, h2⟩
        · intro ⟨d, hd, h1, h2⟩
          rcases hd with hd | hd
          · subst hd
            exact absurd h2 hr
          · exact ih.mpr ⟨d, hd, h1, h2⟩
    · simp only [scanComments, hm, Bool.false_eq_true, if_false]
      simp only [List.mem_cons]
      rw [ih]
      constructor
      · intro ⟨d, hd, h1, h2⟩
        exact ⟨d, Or.inr hd, h1, h2⟩
      · intro ⟨d, hd, h1, h2⟩
        rcases hd with hd | hd
        · subst hd
          exact absurd h1 hm
        · exact ⟨d, hd, h1, h2⟩

lemma scanComments_found_none_iff (p : Pattern) (recent : Int)
    (cs : List IssueComment) :
    (scanComments p recent cs).1 = none ↔
      ∀ c ∈ cs, ¬ patternMatches p c.body := by
  induction cs with
  | nil => simp [scanComments]
  | cons c cs ih =>
    by_cases hm : patternMatches p c.body = true
    · by_cases hr : recent < c.createdAt
      · simp [scanComments, hm, hr]
      · simp [scanComments, hm, hr]
    · simp only [scanComments, hm, Bool.false_eq_true, if_false]
      rw [ih]
      simp [hm]

lemma scanComments_found_mem (p : Pattern) (recent : Int)
    (cs : List IssueComment) (b : String)
    (hb : (scanComments p recent cs).1 = some b) :
    ∃ c ∈ cs, c.body = b ∧ patternMatches p c.body := by
  induction cs with
  | nil => simp [scanComments] at hb
  | cons c cs ih =>
    by_cases hm : patternMatches p c.body = true
    · by_cases hr : recent < c.createdAt
      · simp only [scanComments, hm, if_true, if_pos hr] at hb
        injection hb with hb
        exact ⟨c, by simp, hb, hm⟩
      · simp only [scanComments, hm, if_true, if_neg hr] at hb
        injection hb with hb
        cases hrest : (scanComments p recent cs).1 with
        | none =>
          rw [hrest] at hb
          simp only [Option.getD_none] at hb
          exact ⟨c, by simp, hb, hm⟩
        | some b2 =>
          rw [hrest] at hb
          simp only [Option.getD_some] at hb
          subst hb
          obtain ⟨d, hd, h1, h2⟩ := ih hrest
          exact ⟨d, List.mem_cons_of_mem _ hd, h1, h2⟩
    · simp only [scanComments, hm, Bool.false_eq_true, if_false] at hb
      obtain ⟨d, hd, h1, h2⟩ := ih hb
      exact ⟨d, List.mem_cons_of_mem _ hd, h1, h2⟩

/-- C6: the dependant-trigger chainer.  For a trigger with a single
dependency containing the completed workflow, whose gate passes and whose
comment lookup succeeded, the phrase of the trigger is re-posted exactly when
some fetched comment of the lookback window matches the phrase and no
matching comment was created within the last
`recentCutoffSeconds` (15 minutes); in particular a matching comment
younger than 15 minutes suppresses the post. -/
theorem processDependantWorkflows_antiSpam
    (triggers : List (Pattern × TriggerConfig))
    (runsOf : String → Except String (List WorkflowRun))
    (phrase dep : Pattern) (dtc : TriggerConfig) (baseName : String)
    (comments : List IssueComment) (now : Int)
    (hdep : lookupTrigger triggers dep = some dtc)
    (hwf : dtc.workflows = [baseName])
    (hgate : checkTriggerDependency triggers runsOf dep = .ok (true, false))
    (_hcap : comments.length ≤ commentLookbackLimit)
    (hne : ∀ c ∈ comments, patternMatches phrase c.body → c.body ≠ "") :
    ((∃ b, processDependantOneTrigger triggers runsOf phrase
        { workflows := dtc.workflows, dependsOn := [dep] } baseName
        (.ok comments) now = .ok (some b)) ↔
      ((∃ c ∈ comments, patternMatches phrase c.body) ∧
        ∀ c ∈ comments, patternMatches phrase c.body →
          c.createdAt ≤ now - recentCutoffSeconds)) := by
  unfold processDependantOneTrigger
  simp only [processDependantOneTrigger.go, hdep]
  rw [hwf]
  have hsat :
      (match checkTriggerDependency triggers runsOf dep with
        | .error _ => false
        | .ok g => g.1) = true := by
    rw [hgate]
  have htry : dependantTryWorkflow triggers runsOf phrase dep baseName
      (.ok comments) now baseName =
      (match (scanComments phrase (now - recentCutoffSeconds) comments).1 with
        | some found =>
          if 0 < found.length &&
              !(scanComments phrase (now - recentCutoffSeconds) comments).2 then
            some found
          else none
        | none => none) := by
    unfold dependantTryWorkflow
    simp [hsat]
  simp only [dependantScanWorkflows, htry]
  cases hfound : (scanComments phrase (now - recentCutoffSeconds) comments).1 with
  | none =>
    simp only [dependantScanWorkflows]
    constructor
    · intro ⟨b, hb⟩
      exact absurd hb (by simp)
    · rintro ⟨⟨c, hc, hm⟩, -⟩
      have := (scanComments_found_none_iff phrase (now - recentCutoffSeconds)
        comments).mp hfound c hc
      exact absurd hm this
  | some found =>
    have hfoundMem := scanComments_found_mem phrase (now - recentCutoffSeconds)
      comments found hfound
    obtain ⟨c0, hc0, hc0b, hc0m⟩ := hfoundMem
    have hlen : 0 < found.length := by
      have hne0 : found ≠ "" := by
        have := hne c0 hc0 hc0m
        rw [hc0b] at this
        exact this
      rcases found with ⟨l⟩
      cases l with
      | nil => exact absurd rfl hne0
      | cons a as => simp [String.length]
    by_cases hrec : (scanComments phrase (now - recentCutoffSeconds) comments).2 = true
    · have hb : (0 < found.length &&
          !(scanComments phrase (now - recentCutoffSeconds) comments).2) = false := by
        simp [hrec]
      simp only [hb, Bool.false_eq_true, if_false, dependantScanWorkflows]
      constructor
      · intro ⟨b, hb2⟩
        exact absurd hb2 (by simp)
      · rintro ⟨-, hall⟩
        obtain ⟨c, hc, hm, hrt⟩ := (scanComments_recent_iff phrase
          (now - recentCutoffSeconds) comments).mp hrec
        have := hall c hc hm
        omega
    · have hb : (0 < found.length &&
          !(scanComments phrase (now - recentCutoffSeconds) comments).2) = true := by
        simp only [Bool.and_eq_true, decide_eq_true_eq, Bool.not_eq_true']
        refine ⟨hlen, ?_⟩
        revert hrec
        cases (scanComments phrase (now - recentCutoffSeconds) comments).2 <;> simp
      simp only [hb, if_true]
      constructor
      · intro _
        refine ⟨⟨c0, hc0, hc0m⟩, ?_⟩
        intro c hc hm
        by_contra hlt
        push_neg at hlt
        exact hrec ((scanComments_recent_iff phrase
          (now - recentCutoffSeconds) comments).mpr ⟨c, hc, hm, hlt⟩)
      · intro _
        exact ⟨found, rfl⟩

/-- C6 witness: a matching comment posted one hour ago (outside the
15-minute suppression window) leads to a re-post for the trigger. -/
theorem processDependantWorkflows_antiSpam_witness :
    ∃ b, processDependantOneTrigger
      [(Pattern.lit "/test",
        { workflows := ["test.yaml"],
          dependsOn := [Pattern.lit "/dependency"] }),
       (Pattern.lit "/dependency",
        { workflows := ["dependency.yaml"], dependsOn := [] })]
      (fun w => if w = "dependency.yaml" then
          .ok [{ id := 1, status := "completed", conclusion := "success",
                 runAttempt := 1 }]
        else .ok [])
      (Pattern.lit "/test")
      { workflows := ["dependency.yaml"],
        dependsOn := [Pattern.lit "/dependency"] }
      "dependency.yaml"
      (.ok [{ body := "/test", createdAt := 96400 }]) 100000 =
      .ok (some b) := by
  have h := (processDependantWorkflows_antiSpam
    [(Pattern.lit "/test",
      { workflows := ["test.yaml"],
        dependsOn := [Pattern.lit "/dependency"] }),
     (Pattern.lit "/dependency",
      { workflows := ["dependency.yaml"], dependsOn := [] })]
    (fun w => if w = "dependency.yaml" then
        .ok [{ id := 1, status := "completed", conclusion := "success",
               runAttempt := 1 }]
      else .ok [])
    (Pattern.lit "/test") (Pattern.lit "/dependency")
    { workflows := ["dependency.yaml"], dependsOn := [] }
    "dependency.yaml"
    [{ body := "/test", createdAt := 96400 }] 100000
    (by decide) rfl rfl
    (by decide)
    (by decide)).mpr
    (by
      refine ⟨⟨{ body := "/test", createdAt := 96400 }, by simp, by decide⟩, ?_⟩
      intro c hc hm
      simp only [List.mem_singleton] at hc
      subst hc
      decide)
  exact h

lemma getPullRequestAux_allFail (fetch : Nat → Except String PRData) :
    ∀ remaining attempt,
    (∀ i, attempt ≤ i → i ≤ attempt + remaining → ∃ e, fetch i = .error e) →
    getPullRequestAux fetch attempt remaining =
      ((List.range remaining).map (fun j => backoffSeconds (attempt + j)),
        fetch (attempt + remaining)) := by
  intro remaining
  induction remaining with
  | zero =>
    intro attempt hfail
    obtain ⟨e, he⟩ := hfail attempt le_rfl (by omega)
    unfold getPullRequestAux
    rw [he]
    simp [he]
  | succ r ih =>
    intro attempt hfail
    obtain ⟨e, he⟩ := hfail attempt le_rfl (by omega)
    unfold getPullRequestAux
    rw [he]
    have hrec := ih (attempt + 1) (fun i hi1 hi2 => hfail i (by omega) (by omega))
    rw [hrec]
    have hrange : List.range (r + 1) =
        0 :: (List.range r).map (· + 1) := List.range_succ_eq_map r
    rw [hrange]
    simp only [List.map_cons, List.map_map, Nat.add_zero, Prod.mk.injEq]
    constructor
    · congr 1
      simp only [List.map_inj_left, Function.comp_apply]
      intro j hj
      congr 1
      omega
    · congr 1
      omega

lemma getPullRequestAux_succeedsAt (fetch : Nat → Except String PRData) :
    ∀ remaining attempt k pr, attempt ≤ k → k ≤ attempt + remaining →
    (∀ i, attempt ≤ i → i < k → ∃ e, fetch i = .error e) →
    fetch k = .ok pr →
    getPullRequestAux fetch attempt remaining =
      ((List.range (k - attempt)).map (fun j => backoffSeconds (attempt + j)),
        .ok pr) := by
  intro remaining
  induction remaining with
  | zero =>
    intro attempt k pr h1 h2 hfail hk
    have hak : attempt = k := by omega
    subst hak
    unfold getPullRequestAux
    rw [hk]
    simp
  | succ r ih =>
    intro attempt k pr h1 h2 hfail hk
    rcases Nat.eq_or_lt_of_le h1 with hak | hak
    · subst hak
      unfold getPullRequestAux
      rw [hk]
      simp
    · obtain ⟨e, he⟩ := hfail attempt le_rfl hak
      unfold getPullRequestAux
      rw [he]
      have hrec := ih (attempt + 1) k pr hak (by omega)
        (fun i hi1 hi2 => hfail i (by omega) hi2) hk
      rw [hrec]
      have hke : k - attempt = (k - (attempt + 1)) + 1 := by omega
      rw [hke, List.range_succ_eq_map]
      simp only [List.map_cons, List.map_map, Nat.add_zero, Prod.mk.injEq]
      constructor
      · congr 1
        simp only [List.map_inj_left, Function.comp_apply]
        intro j hj
        congr 1
        omega
      · trivial

/-- C7 counterexample: with the default bound of 3 and a first attempt that
fails (then succeeds), the code sleeps 0 whole seconds before the first
retry, not the 2^(1−1) = 1 second the claim prescribes for one attempt
already made. -/
theorem getPullRequest_backoff_counterexample :
    (getPullRequest
      (fun i => if i = 0 then .error "transient"
        else .ok { state := "open", headRef := "b", headSHA := "h",
                   baseRef := "main", baseSHA := "s", headOwner := "o",
                   headRepo := "r" })
      DefaultMaxRetryAttempts).1 = [0] ∧
    (0 : Nat) ≠ 2 ^ (1 - 1) := by
  constructor
  · rfl
  · decide

/-- C7 (amended): the PR lookup is retried up to `maxRetryAttempts` times;
the sleep before the retry following the failed 0-based attempt `a` is
`2 ^ a / 2` whole seconds (0 before the first retry, then 1, 2, 4, …,
the truncation of `2^(a-1)`); when every attempt fails the loop performs
exactly `maxRetryAttempts` retries and returns the last error, and when
attempt `k` first succeeds the loop has slept that schedule for attempts
`0 … k-1`. -/
theorem getPullRequest_retry_schedule (fetch : Nat → Except String PRData)
    (maxRetryAttempts : Nat) :
    ((∀ i, i ≤ maxRetryAttempts → ∃ e, fetch i = .error e) →
      getPullRequestAux fetch 0 maxRetryAttempts =
        ((List.range maxRetryAttempts).map backoffSeconds,
          fetch maxRetryAttempts)) ∧
    (∀ k pr, k ≤ maxRetryAttempts →
      (∀ i, i < k → ∃ e, fetch i = .error e) → fetch k = .ok pr →
      getPullRequestAux fetch 0 maxRetryAttempts =
        ((List.range k).map backoffSeconds, .ok pr)) ∧
    (∀ a, backoffSeconds a = 2 ^ a / 2) := by
  refine ⟨?_, ?_, fun a => rfl⟩
  · intro hfail
    have := getPullRequestAux_allFail fetch maxRetryAttempts 0
      (fun i _ hi2 => hfail i (by omega))
    simpa using this
  · intro k pr hk hfail hok
    have := getPullRequestAux_succeedsAt fetch maxRetryAttempts 0 k pr
      (by omega) (by omega) (fun i _ hi2 => hfail i hi2) hok
    simpa using this

/-- C7 witness: with the default bound 3 and every attempt failing, the
loop sleeps 0, 1 and 2 seconds and returns the last error. -/
theorem getPullRequest_retry_schedule_witness :
    getPullRequestAux (fun _ => .error "transient") 0 DefaultMaxRetryAttempts =
      ([0, 1, 2], .error "transient") :=
  ((getPullRequest_retry_schedule (fun _ => .error "transient")
      DefaultMaxRetryAttempts).1 (fun _ _ => ⟨"transient", rfl⟩)).trans rfl

example :
    checkForTrigger [(Pattern.lit "/cute", ⟨["cte.yaml"], []⟩)] "/cute" =
    (some ["/cute"], ["cte.yaml"], []) := by decide

example :
    checkForTrigger [(Pattern.litCap "/cute ", ⟨["cte.yaml"], []⟩)]
      "/cute zerohash" =
    (some ["/cute zerohash", "zerohash"], ["cte.yaml"], []) := by decide

example :
    checkForTrigger
      [(Pattern.lit "/test", ⟨["test.yaml"], []⟩),
       (Pattern.lit "/deploy", ⟨["deploy.yaml"], [Pattern.lit "/test"]⟩)]
      "/deploy" =
    (some ["/deploy"], ["deploy.yaml"], [Pattern.lit "/test"]) := by decide

/-- C4 counterexample: as in the in-repo test `Test_CheckForTrigger`, the
phrase `/cute` produces a regex match somewhere on the body
`/cute cilium/cute-nationwide`, yet the matcher returns nil, so the matcher
is not the unanchored anywhere-on-the-body matcher the claim describes. -/
theorem checkForTrigger_not_unanchored :
    (checkForTrigger [(Pattern.lit "/cute", ⟨["cte.yaml"], []⟩)]
      "/cute cilium/cute-nationwide").1 = none ∧
    patternMatches (Pattern.lit "/cute") "/cute cilium/cute-nationwide" = true := by
  constructor
  · decide
  · decide

/-- C4 (amended): the trigger matcher returns a non-nil submatch exactly
when some configured phrase matches the entire comment body (the matcher is
anchored to the whole body, as fixed by `Test_CheckForTrigger`); when no
trigger matches it returns nil; and a submatch carrying a capture group is
forwarded by `createWorkflowDispatchEvent` as the JSON-encoded input
`extra-args`. -/
theorem checkForTrigger_anchored (triggers : List (Pattern × TriggerConfig))
    (comment : String) :
    ((checkForTrigger triggers comment).1 ≠ none ↔
      ∃ pc ∈ triggers, findStringSubmatchAnchored pc.1 comment ≠ none) ∧
    (∀ sm, (checkForTrigger triggers comment).1 = some sm → 1 < sm.length →
      ∀ prNumber contextRef headSHA baseSHA,
        ("extra-args", jsonEncodeString (sm.getD 1 "")) ∈
          (createWorkflowDispatchEvent prNumber contextRef headSHA baseSHA
            sm).2) := by
  constructor
  · induction triggers with
    | nil => simp [checkForTrigger]
    | cons pc rest ih =>
      rcases pc with ⟨p, tc⟩
      cases hm : findStringSubmatchAnchored p comment with
      | some sm =>
        simp only [checkForTrigger, hm]
        constructor
        · intro _
          exact ⟨(p, tc), by simp, by simp [hm]⟩
        · intro _
          simp
      | none =>
        simp only [checkForTrigger, hm]
        rw [ih]
        constructor
        · intro ⟨q, hq, hqm⟩
          exact ⟨q, List.mem_cons_of_mem _ hq, hqm⟩
        · intro ⟨q, hq, hqm⟩
          rcases List.mem_cons.mp hq with h | h
          · subst h
            exact absurd hm (by simpa using hqm)
          · exact ⟨q, h, hqm⟩
  · intro sm hsm hlen prNumber contextRef headSHA baseSHA
    unfold createWorkflowDispatchEvent
    simp [hlen]

/-- C4 witness: a capturing trigger matched on a full body yields a
submatch whose capture group is forwarded as `extra-args`. -/
theorem checkForTrigger_anchored_witness :
    ((checkForTrigger [(Pattern.litCap "/cute ", ⟨["cte.yaml"], []⟩)]
        "/cute zerohash").1 ≠ none) ∧
    ("extra-args", jsonEncodeString "zerohash") ∈
      (createWorkflowDispatchEvent 7 "main" "h" "b"
        ["/cute zerohash", "zerohash"]).2 :=
  ⟨(checkForTrigger_anchored [(Pattern.litCap "/cute ", ⟨["cte.yaml"], []⟩)]
      "/cute zerohash").1.mpr
    ⟨(Pattern.litCap "/cute ", ⟨["cte.yaml"], []⟩), by simp, by decide⟩,
   by
    have := (checkForTrigger_anchored
      [(Pattern.litCap "/cute ", ⟨["cte.yaml"], []⟩)] "/cute zerohash").2
      ["/cute zerohash", "zerohash"] (by decide) (by decide) 7 "main" "h" "b"
    simpa using this⟩

/-- C3: evaluation at the failing input.  Stage
`{workflows: [a.yaml, b.yaml], command: /next}` with the label present;
the completed workflow is `a.yaml` with a successful run at the head SHA,
while `b.yaml` has no prior run there at all — yet the command is posted,
although the claim (and spec section 4.8) requires every workflow of the
stage to have at least one successful prior run. -/
theorem processStages_posts_without_run :
    (processStages
      (some { label := "auto-cicd",
              stages := [{ workflows := ["a.yaml", "b.yaml"],
                           command := "/next" }] })
      ["auto-cicd"]
      (fun w => if w = "a.yaml" then
          .ok [{ id := 1, status := "completed", conclusion := "success",
                 runAttempt := 1 }]
        else .ok [])
      1 ".github/workflows/a.yaml").1 = [.createComment 1 "/next"] ∧
    (fun w => if w = "a.yaml" then
        (.ok [{ id := 1, status := "completed", conclusion := "success",
                runAttempt := 1 }] : Except String (List WorkflowRun))
      else .ok []) "b.yaml" = .ok [] := by
  constructor
  · rfl
  · rfl

lemma checkStage_pass_iff (runsOf : String → Except String (List WorkflowRun))
    (ws : List String) :
    checkStage runsOf ws = .pass ↔
      ∀ w ∈ ws, ∃ runs, runsOf w = .ok runs ∧
        ∀ r ∈ runs, r.conclusion = "success" := by
  induction ws with
  | nil => simp [checkStage]
  | cons w ws ih =>
    cases hw : runsOf w with
    | error e =>
      simp only [checkStage, hw, List.mem_cons]
      constructor
      · intro h
        cases h
      · intro h
        obtain ⟨runs, hr, -⟩ := h w (Or.inl rfl)
        rw [hw] at hr
        cases hr
    | ok runs =>
      by_cases hall : runs.all (fun r => r.conclusion == "success") = true
      · simp only [checkStage, hw, hall, if_true, ih, List.mem_cons]
        constructor
        · intro h v hv
          rcases hv with hv | hv
          · subst hv
            refine ⟨runs, hw, ?_⟩
            intro r hr
            have := List.all_eq_true.mp hall r hr
            simpa using this
          · exact h v hv
        · intro h v hv
          exact h v (Or.inr hv)
      · simp only [checkStage, hw, hall, Bool.false_eq_true, if_false,
          List.mem_cons]
        constructor
        · intro h
          cases h
        · intro h
          obtain ⟨runs2, hr, hok⟩ := h w (Or.inl rfl)
          rw [hw] at hr
          injection hr with hr
          subst hr
          refine absurd (List.all_eq_true.mpr ?_) hall
          intro r hr
          simpa using hok r hr

lemma stagesLoop_trace (runsOf : String → Except String (List WorkflowRun))
    (prNumber : Int) (stages : List Stage) :
    (stagesLoop runsOf prNumber stages).1 =
      (stages.takeWhile
          (fun st => checkStage runsOf st.workflows == StageCheck.pass)).map
        (fun st => ForgeCall.createComment prNumber st.command) := by
  induction stages with
  | nil => simp [stagesLoop]
  | cons st rest ih =>
    cases hc : checkStage runsOf st.workflows with
    | fetchErr e => simp [stagesLoop, hc, List.takeWhile_cons]
    | nonSuccess => simp [stagesLoop, hc, List.takeWhile_cons]
    | pass => simp [stagesLoop, hc, List.takeWhile_cons, ih]

/-- The exact behaviour of `processStages` (supplementary to the C3
evaluation): with the label present, the commands posted are those of the
longest prefix of the matched stages whose every fetched run at the head
SHA concluded success, a stage passing vacuously when a workflow has no
runs at the SHA. -/
theorem processStages_characterization (sc : StagesConfig)
    (labels : List String)
    (runsOf : String → Except String (List WorkflowRun)) (prNumber : Int)
    (workflowPath : String) (hlabel : sc.label ≠ "")
    (hhas : labels.contains sc.label = true) :
    (processStages (some sc) labels runsOf prNumber workflowPath).1 =
      ((((sc.stages.map (fun st =>
            (st.workflows.filter
                (fun w => w == filepathBase workflowPath)).map
              (fun _ => st))).flatten).takeWhile
          (fun st => checkStage runsOf st.workflows == StageCheck.pass)).map
        (fun st => ForgeCall.createComment prNumber st.command)) ∧
    (∀ st : Stage, checkStage runsOf st.workflows = .pass ↔
      stagePasses runsOf st) := by
  constructor
  · unfold processStages
    simp only [if_neg hlabel, hhas, Bool.not_true, Bool.false_eq_true,
      if_false]
    set matched := (sc.stages.map (fun st =>
      (st.workflows.filter (fun w => w == filepathBase workflowPath)).map
        (fun _ => st))).flatten with hm
    by_cases hempty : matched.isEmpty
    · rw [if_pos hempty]
      rw [List.isEmpty_iff] at hempty
      rw [hempty]
      simp
    · rw [if_neg hempty]
      exact stagesLoop_trace runsOf prNumber matched
  · intro st
    exact checkStage_pass_iff runsOf st.workflows

/-- C9: an errored run-history query is treated as "no prior run": the skip
check returns false, the engine proceeds to the path gate and dispatches
the workflow again when the gate allows, and the event itself still
succeeds. -/
theorem shouldSkipWorkflow_error_proceeds (workflow sha e : String)
    (reportAll : Bool) (jobsRes : Except String (List WorkflowJob))
    (rerunJobRes dispatchRes : Except String Unit)
    (getWorkflowRes : Except String String)
    (checkRunRes : Except String Unit) (cfg : ArianeConfig) (prNumber : Int)
    (workflows : List String)
    (depRunsOf : String → Except String (List WorkflowRun))
    (pathGateOf : String → Bool) (errOf : String → String)
    (envOf : String → ProcEnv) :
    ((shouldSkipWorkflow workflow sha
        { runsRes := .error e, jobsRes := jobsRes,
          rerunJobRes := rerunJobRes, dispatchRes := dispatchRes,
          getWorkflowRes := getWorkflowRes,
          checkRunRes := checkRunRes }).1 = false) ∧
    (ForgeCall.dispatchWorkflow workflow ∈
      (processWorkflow reportAll true workflow sha
        { runsRes := .error e, jobsRes := jobsRes,
          rerunJobRes := rerunJobRes, dispatchRes := dispatchRes,
          getWorkflowRes := getWorkflowRes,
          checkRunRes := checkRunRes }).1) ∧
    ((processWorkflowsForTrigger cfg prNumber sha workflows []
        { depRunsOf := depRunsOf, filesRes := .ok (),
          pathGateOf := pathGateOf,
          procEnvOf := fun w =>
            { runsRes := .error (errOf w), jobsRes := (envOf w).jobsRes,
              rerunJobRes := (envOf w).rerunJobRes,
              dispatchRes := (envOf w).dispatchRes,
              getWorkflowRes := (envOf w).getWorkflowRes,
              checkRunRes := (envOf w).checkRunRes } }).2 = .ok ()) := by
  refine ⟨rfl, ?_, ?_⟩
  · have hskip : (shouldSkipWorkflow workflow sha
        { runsRes := .error e, jobsRes := jobsRes,
          rerunJobRes := rerunJobRes, dispatchRes := dispatchRes,
          getWorkflowRes := getWorkflowRes,
          checkRunRes := checkRunRes }).1 = false := rfl
    unfold processWorkflow
    simp only [hskip, Bool.false_eq_true, if_false, if_true]
    cases dispatchRes <;> simp
  · unfold processWorkflowsForTrigger
    simp [processDeps]

lemma getPullRequestAux_ok0 (fetch : Nat → Except String PRData) (n : Nat)
    (pr : PRData) (h : fetch 0 = .ok pr) :
    getPullRequestAux fetch 0 n = ([], .ok pr) := by
  cases n with
  | zero =>
    unfold getPullRequestAux
    rw [h]
  | succ r =>
    unfold getPullRequestAux
    rw [h]

lemma getPullRequest_notOpen (fetch : Nat → Except String PRData) (n : Nat)
    (pr : PRData) (h : fetch 0 = .ok pr) (hstate : pr.state ≠ "open") :
    getPullRequest fetch n = ([], .error "pull request is not open") := by
  unfold getPullRequest
  rw [getPullRequestAux_ok0 fetch n pr h]
  have : (pr.state != "open") = true := bne_iff_ne.mpr hstate
  simp [this]

/-- C10: on a comment event that passes the pre-filters and on an allowed
pull-request lifecycle event, a fetched pull request whose state is not
open makes handling fail with the error "pull request is not open": the
only call issued is the failure comment, so no trigger matching, reaction,
workflow dispatch or check-run creation takes place. -/
theorem notOpen_failsEarly (owner repo : String) (ev : CommentEvent)
    (env env2 : HandleEnv) (m m2 : Nat) (action : String) (prNumber : Int)
    (pr pr2 : PRData)
    (hpr : ev.isPullRequest = true) (hact : ev.action = "created")
    (hbody : hasPrefixStr (trimSpace ev.commentBody) "/" = true)
    (hbot : (hasSuffixStr ev.commentAuthor "[bot]" &&
      !(hasPrefixStr ev.commentAuthor owner)) = false)
    (hfetch : env.fetch 0 = .ok pr) (hstate : pr.state ≠ "open")
    (haction : action = "opened")
    (hfetch2 : env2.fetch 0 = .ok pr2) (hstate2 : pr2.state ≠ "open") :
    (issueCommentHandle owner repo ev env m =
      ([.createComment ev.prNumber
          "Failed to retrieve pull request: pull request is not open"],
        .error "pull request is not open")) ∧
    (pullRequestHandle owner repo action prNumber env2 m2 =
      ([.createComment prNumber
          "Failed to retrieve pull request: pull request is not open"],
        .error "pull request is not open")) := by
  constructor
  · unfold issueCommentHandle
    rw [getPullRequest_notOpen env.fetch m pr hfetch hstate]
    simp [hpr, hact, hbody, hbot]
  · unfold pullRequestHandle
    rw [getPullRequest_notOpen env2.fetch m2 pr2 hfetch2 hstate2]
    simp [haction]

/-- C10 witness: a closed pull request makes both handlers fail with
"pull request is not open" after posting only the failure comment. -/
theorem notOpen_failsEarly_witness :
    (issueCommentHandle "owner" "repo" notOpenFixtureEvent notOpenFixtureEnv
        DefaultMaxRetryAttempts =
      ([.createComment 0
          "Failed to retrieve pull request: pull request is not open"],
        .error "pull request is not open")) ∧
    (pullRequestHandle "owner" "repo" "opened" 0 notOpenFixtureEnv
        DefaultMaxRetryAttempts =
      ([.createComment 0
          "Failed to retrieve pull request: pull request is not open"],
        .error "pull request is not open")) :=
  notOpen_failsEarly "owner" "repo" notOpenFixtureEvent notOpenFixtureEnv
    notOpenFixtureEnv DefaultMaxRetryAttempts DefaultMaxRetryAttempts
    "opened" 0 notOpenFixturePR notOpenFixturePR
    rfl rfl (by decide) (by decide) rfl (by decide) rfl rfl (by decide)

end Ariane
